import Mathlib

/-!
Verification of the fetch-retry-normalize pipeline of
`pandas_datareader/base.py`: the HTTP retry engine (`_BaseReader._get_response`),
the response normalizer (`_BaseReader._read_lines`), the session lifecycle of
the `read` entry points, the chunking helper (`_in_chunks`) and the
multi-symbol batcher (`_DailyBaseReader._dl_mult_symbols`).

Modelling conventions:
* Machine floats (`pause`, timeouts) are modelled as exact rationals `ℚ`;
  the claims never depend on float rounding.
* A table cell is `Option ℚ`, `none` standing for NaN / missing.
* Python exceptions are explicit values of type `PyErr`; an uncaught
  exception is a distinguished outcome of the modelled call.
* HTTP is an environment: `responses i` is the response the i-th GET of a
  call receives; issuing a GET and sleeping are recorded as `Event`s.
-/

namespace PandasDatareader

/-- A single-quote character, used for Python `repr` of strings. -/
def squote : String := "\x27"

/-- Python `repr` of a simple string (the `{0!r}` format of the source). -/
def pyRepr (s : String) : String := squote ++ s ++ squote

/-- Python exceptions relevant to `base.py`. -/
inductive PyErr where
  | typeError
  | notImplementedError
  | unboundLocalError
  | indexError
  | keyError
  deriving Repr, DecidableEq

/-- A table cell: `none` is NaN / missing. -/
abbrev Cell := Option ℚ

/-- Shallow model of a pandas `DataFrame` as produced by `read_csv` with
`index_col=0`: an index name, column names, and rows of (index value, cells).
Index values are kept as strings (parsed dates compare by value equality). -/
structure DataFrame where
  columns : List String
  indexName : String
  rows : List (String × List Cell)
  deriving Repr, DecidableEq

/-- An HTTP response as seen by `_get_response`. -/
structure Response where
  status_code : Nat
  encoding : Option String
  text : String
  deriving Repr, DecidableEq

/-- `requests.codes.ok`. -/
def requests_codes_ok : Nat := 200

/-- The `params` argument of `_get_response`: Python `None`, a dict, or a
list of strings (the shape tested by `isinstance(params, list)`). -/
inductive Params where
  | none
  | pdict (entries : List (String × String))
  | plist (items : List String)
  deriving Repr, DecidableEq

/-- Python `params is not None and len(params) > 0`. -/
def paramsLen : Params → Nat
  | .none => 0
  | .pdict entries => entries.length
  | .plist items => items.length

/-- Replace the value of a key in an association list, or append it. -/
def setKey (k v : String) : List (String × String) → List (String × String)
  | [] => [(k, v)]
  | (k2, v2) :: rest => if k2 = k then (k, v) :: rest else (k2, v2) :: setKey k v rest

/-- Python `params["crumb"] = v`: item assignment. On a list this raises
`TypeError` (list indices must be integers); on a dict it stores the value;
on `None` it raises `TypeError` as well. -/
def setItem (p : Params) (k v : String) : Except PyErr Params :=
  match p with
  | .plist _ => .error .typeError
  | .pdict entries => .ok (.pdict (setKey k v entries))
  | .none => .error .typeError

/-- Python `isinstance(params, list) and "crumb" in params`. -/
def isCrumbList : Params → Bool
  | .plist items => items.contains "crumb"
  | _ => false

/-- `urlencode(params)` for the failure message; only its presence as a
suffix after the URL matters to the verified properties. -/
def urlencodeP : Params → String
  | .none => ""
  | .pdict entries => String.intercalate "&" (entries.map (fun e => e.1 ++ "=" ++ e.2))
  | .plist items => String.intercalate "&" items

/-- Observable side effects of one `_get_response` call: issuing a GET and
sleeping for a duration. -/
inductive Event where
  | get
  | sleep (duration : ℚ)
  deriving Repr, DecidableEq

/-- The reader state and provider hooks `_get_response` depends on:
`retry_count`, `pause`, `pause_multiplier`, the environment of responses
(the i-th GET of the call receives `responses i`), the `_output_error`
classifier hook and the `_get_crumb` provider hook. -/
structure ReaderCfg where
  retry_count : Nat
  pause : ℚ
  pause_multiplier : ℚ
  responses : Nat → Response
  output_error : Response → Bool
  get_crumb : Nat → Except PyErr String

/-- The base class `_output_error`: always `False`. -/
def default_output_error (_ : Response) : Bool := false

/-- The base class `_get_crumb`: raises `NotImplementedError`. -/
def base_get_crumb (_ : Nat) : Except PyErr String := .error .notImplementedError

/-- Mutable state of the retry loop: current `params`, current `pause`,
`last_response_text`. -/
structure LoopState where
  params : Params
  pause : ℚ
  lastText : String
  deriving Repr, DecidableEq

/-- How the `for _ in range(retry_count + 1)` loop ends. -/
inductive LoopOutcome where
  | returned (r : Response)
  | finished
  | raised (e : PyErr)
  deriving Repr, DecidableEq

/-- One-to-one model of the body of the retry loop of
`_BaseReader._get_response`, iterated `fuel` times: GET; return on 200;
otherwise capture the body text when an encoding is known, sleep for the
current pause, multiply the pause by the backoff multiplier, refresh the
crumb when `params` is a list containing `"crumb"` (the refreshed token is
fetched first, then stored by item assignment, exactly as Python evaluates
`params["crumb"] = self._get_crumb(self.retry_count)`), then consult the
`_output_error` classifier and break early when it returns `True`. -/
def getResponseLoop (cfg : ReaderCfg) : Nat → Nat → LoopState → LoopOutcome × LoopState × List Event
  | _, 0, st => (.finished, st, [])
  | i, fuel + 1, st =>
    let response := cfg.responses i
    if response.status_code = requests_codes_ok then
      (.returned response, st, [Event.get])
    else
      let lastText := match response.encoding with
        | some _ => response.text
        | none => st.lastText
      let events := [Event.get, Event.sleep st.pause]
      let pause2 := st.pause * cfg.pause_multiplier
      let crumbRes : Except PyErr Params :=
        if isCrumbList st.params then
          match cfg.get_crumb cfg.retry_count with
          | .error e => .error e
          | .ok v => setItem st.params "crumb" v
        else .ok st.params
      match crumbRes with
      | .error e => (.raised e, ⟨st.params, pause2, lastText⟩, events)
      | .ok ps =>
        if cfg.output_error response then
          (.finished, ⟨ps, pause2, lastText⟩, events)
        else
          match getResponseLoop cfg (i + 1) fuel ⟨ps, pause2, lastText⟩ with
          | (o, stf, evs) => (o, stf, events ++ evs)

/-- Result of `_get_response`: a successful response, a raised
`RemoteDataError` carrying its message, or some other uncaught exception. -/
inductive GetResponseResult where
  | ok (r : Response)
  | remoteDataError (msg : String)
  | uncaught (e : PyErr)
  deriving Repr, DecidableEq

/-- Model of `_BaseReader._get_response`: run the retry loop for
`retry_count + 1` iterations; on falling out of the loop, append the
URL-encoded params to the URL when params are non-empty, and raise
`RemoteDataError` with a message holding that URL and any captured
response text. -/
def _get_response (cfg : ReaderCfg) (url : String) (params : Params) :
    GetResponseResult × List Event :=
  match getResponseLoop cfg 0 (cfg.retry_count + 1) ⟨params, cfg.pause, ""⟩ with
  | (.returned r, _, tr) => (.ok r, tr)
  | (.raised e, _, tr) => (.uncaught e, tr)
  | (.finished, st, tr) =>
    let url2 := if 0 < paramsLen st.params then url ++ "?" ++ urlencodeP st.params else url
    let msg := "Unable to read URL: " ++ url2
    let msg2 := if st.lastText ≠ "" then msg ++ "\nResponse Text:\n" ++ st.lastText else msg
    (.remoteDataError msg2, tr)

/-- Python 3 `s.encode("ascii", "ignore").decode()`: drop non-ASCII
characters (the `except AttributeError` branch of `_read_lines`; the `try`
branch is Python-2-only since `str.decode` does not exist in Python 3). -/
def asciiEncode (s : String) : String :=
  String.mk (s.toList.filter (fun c => c.toNat < 128))

/-- Model of `_BaseReader._read_lines` applied to the table parsed by
`read_csv`: reverse the rows, strip whitespace from the column names, drop
the last row when the table has more than two rows and its last two rows
share an index value, and restrict the index name to ASCII. -/
def _read_lines (df : DataFrame) : DataFrame :=
  let rs : DataFrame := { df with rows := df.rows.reverse }
  let rs : DataFrame := { rs with columns := rs.columns.map String.trim }
  let rs : DataFrame :=
    if 2 < rs.rows.length ∧
        (rs.rows.get? (rs.rows.length - 1)).map Prod.fst =
          (rs.rows.get? (rs.rows.length - 2)).map Prod.fst then
      { rs with rows := rs.rows.take (rs.rows.length - 1) }
    else rs
  { rs with indexName := asciiEncode rs.indexName }

/-- The per-instance network session: only whether it is open matters. -/
structure SessionState where
  sessionOpen : Bool
  deriving Repr, DecidableEq

/-- `_BaseReader.close`: close the network session. -/
def closeSession (s : SessionState) : SessionState := { s with sessionOpen := false }

/-- Model of `_BaseReader.read`: `try: return self._read_one_data(...)
finally: self.close()` — the body's outcome (normal value or raised
exception) is propagated and `close` runs on both paths. -/
def base_read {α : Type} (s : SessionState) (body : Except PyErr α) :
    Except PyErr α × SessionState :=
  (body, closeSession s)

/-- Model of `_DailyBaseReader.read`: dispatch to `_read_one_data` or
`_dl_mult_symbols` and return the result; no `close` appears on any path
of this override. -/
def daily_read {α : Type} (s : SessionState) (body : Except PyErr α) :
    Except PyErr α × SessionState :=
  (body, s)

/-- Python `range(start, stop, step)` for a positive step. -/
def pyRange (start stop step : Nat) : List Nat :=
  (List.range ((stop - start + step - 1) / step)).map (fun k => start + k * step)

/-- Model of `_in_chunks`: `(seq[pos : pos + size] for pos in
range(0, len(seq), size))`, with `seq[pos : pos + size]` as drop-then-take. -/
def _in_chunks {α : Type} (seq : List α) (size : Nat) : List (List α) :=
  (pyRange 0 seq.length size).map (fun pos => (seq.drop pos).take size)

/-- Python dict assignment `d[k] = v` on a string-keyed dict of frames,
preserving insertion order. -/
def insertOrUpdate (stocks : List (String × DataFrame)) (k : String) (v : DataFrame) :
    List (String × DataFrame) :=
  match stocks with
  | [] => [(k, v)]
  | (k2, v2) :: rest =>
    if k2 = k then (k, v) :: rest else (k2, v2) :: insertOrUpdate rest k v

/-- Python dict lookup `d[k]` as an option. -/
def lookupFrame : List (String × DataFrame) → String → Option DataFrame
  | [], _ => none
  | e :: rest, k => if e.1 = k then some e.2 else lookupFrame rest k

/-- `df_na = stocks[passed[0]].copy(); df_na[:] = np.nan`: same shape, all
cells missing. -/
def allNaN (df : DataFrame) : DataFrame :=
  { df with rows := df.rows.map (fun r => (r.1, r.2.map (fun _ => (none : Cell)))) }

/-- Insert a string into a lexicographically sorted list. -/
def insertSorted (x : String) : List String → List String
  | [] => [x]
  | y :: ys => if (compare x y).isLE then x :: y :: ys else y :: insertSorted x ys

/-- Lexicographic insertion sort on strings (order used by pandas when
sorting column labels and unstacked level labels). -/
def sortStrings (xs : List String) : List String := xs.foldr insertSorted []

/-- The combined wide table: two column levels (attribute, symbol) with
their level names, and date-indexed rows of cells aligned to `cols`. -/
structure WideFrame where
  levelNames : List String
  cols : List (String × String)
  rows : List (String × List Cell)
  deriving Repr, DecidableEq

/-- The cell of the combined table at row position `r`, column
`(attr, sym)`: the value of symbol `sym`'s frame at that row and attribute,
missing when absent. -/
def cellOf (stocks : List (String × DataFrame)) (sym : String) (r : Nat) (attr : String) :
    Cell :=
  match lookupFrame stocks sym with
  | none => none
  | some df =>
    match df.columns.indexOf? attr with
    | none => none
    | some ci =>
      match df.rows.get? r with
      | none => none
      | some row => (row.2.get? ci).getD none

/-- Model of `concat(stocks, sort=True).unstack(level=0)` followed by
`result.columns.names = ["Attributes", "Symbols"]`, for frames sharing one
shape (the shape of the first stored frame): columns are the product of the
sorted attribute labels with the sorted symbol labels, attribute-major, and
the row index is that of the first stored frame. -/
def combineStocks (stocks : List (String × DataFrame)) : WideFrame :=
  match stocks with
  | [] => ⟨["Attributes", "Symbols"], [], []⟩
  | (_, df0) :: _ =>
    let syms := sortStrings (stocks.map (fun e => e.1))
    let attrs := sortStrings df0.columns
    let cols := attrs.flatMap (fun a => syms.map (fun s => (a, s)))
    let rows := (List.range df0.rows.length).map (fun r =>
      (((df0.rows.get? r).map Prod.fst).getD "",
        cols.map (fun c => cellOf stocks c.2 r c.1)))
    ⟨["Attributes", "Symbols"], cols, rows⟩

/-- State threaded through the symbol loop of `_dl_mult_symbols`:
`stocks`, `passed`, `failed`, and the warnings emitted so far. -/
structure BatchState where
  stocks : List (String × DataFrame)
  passed : List String
  failed : List String
  warnings : List String
  deriving Repr, DecidableEq

/-- The warning message emitted for a failed symbol. -/
def failMsg (sym : String) : String :=
  "Failed to read symbol: " ++ pyRepr sym ++ ", replacing with NaN."

/-- Body of the inner loop of `_dl_mult_symbols`: fetch-and-normalize one
symbol (`fetch sym = none` models `_read_one_data` raising an `OSError` or
`KeyError`, the exceptions the `except` clause catches); on success store
the frame and record the symbol as passed, on failure warn and record it as
failed. -/
def processSym (fetch : String → Option DataFrame) (st : BatchState) (sym : String) :
    BatchState :=
  match fetch sym with
  | some df =>
    { st with stocks := insertOrUpdate st.stocks sym df, passed := st.passed ++ [sym] }
  | none =>
    { st with failed := st.failed ++ [sym], warnings := st.warnings ++ [failMsg sym] }

/-- Outcome of `_dl_mult_symbols`: a combined table, a raised
`RemoteDataError` carrying its message, or some other uncaught exception. -/
inductive BatchOutcome where
  | ok (w : WideFrame)
  | remoteDataError (msg : String)
  | uncaught (e : PyErr)
  deriving Repr, DecidableEq

/-- Model of `_DailyBaseReader._dl_mult_symbols`, returning the outcome
and the warnings emitted. The two nested loops run `processSym` over every
symbol of every chunk. If nothing passed, raise `RemoteDataError`. The
`try` body only assigns `result` under the guard
`len(stocks) > 0 and len(failed) > 0 and len(passed) > 0`; when that guard
is false, `return result` reads an unassigned local, which raises
`UnboundLocalError` — a `NameError`, not caught by `except AttributeError`.
`passed[0]` on an empty list would raise `IndexError`, and the dict access
`stocks[passed[0]]` `KeyError` on a missing key (both unreachable). -/
def _dl_mult_symbols (className : String) (chunksize : Nat)
    (fetch : String → Option DataFrame) (symbols : List String) :
    BatchOutcome × List String :=
  let st := (_in_chunks symbols chunksize).foldl
    (fun acc grp => grp.foldl (processSym fetch) acc) ⟨[], [], [], []⟩
  if st.passed.length = 0 then
    (.remoteDataError ("No data fetched using " ++ pyRepr className), st.warnings)
  else if 0 < st.stocks.length ∧ 0 < st.failed.length ∧ 0 < st.passed.length then
    match st.passed with
    | [] => (.uncaught .indexError, st.warnings)
    | p :: _ =>
      match lookupFrame st.stocks p with
      | none => (.uncaught .keyError, st.warnings)
      | some df0 =>
        let dfNa := allNaN df0
        let stocks2 := st.failed.foldl (fun s sym => insertOrUpdate s sym dfNa) st.stocks
        (.ok (combineStocks stocks2), st.warnings)
  else
    (.uncaught .unboundLocalError, st.warnings)

/-! ### Helper lemmas about the retry loop -/

theorem getResponseLoop_exhausts (cfg : ReaderCfg) (params : Params)
    (hfail : ∀ i, (cfg.responses i).status_code ≠ requests_codes_ok)
    (hstop : ∀ r, cfg.output_error r = false)
    (hcrumb : isCrumbList params = false) :
    ∀ fuel i pause lastText, ∃ finalText,
      getResponseLoop cfg i fuel ⟨params, pause, lastText⟩ =
        (.finished, ⟨params, pause * cfg.pause_multiplier ^ fuel, finalText⟩,
          (List.range fuel).flatMap
            (fun k => [Event.get, Event.sleep (pause * cfg.pause_multiplier ^ k)])) := by
  intro fuel
  induction fuel with
  | zero =>
    intro i pause lastText
    exact ⟨lastText, by simp [getResponseLoop]⟩
  | succ n ih =>
    intro i pause lastText
    obtain ⟨ft, hft⟩ := ih (i + 1) (pause * cfg.pause_multiplier)
      (match (cfg.responses i).encoding with
        | some _ => (cfg.responses i).text
        | none => lastText)
    refine ⟨ft, ?_⟩
    rw [getResponseLoop]
    simp only [if_neg (hfail i), hcrumb, if_neg, Bool.false_eq_true, ite_false,
      hstop (cfg.responses i), hft]
    have hpow : ∀ k : Nat,
        pause * cfg.pause_multiplier * cfg.pause_multiplier ^ k =
          pause * cfg.pause_multiplier ^ (k + 1) := by
      intro k; ring
    have hfun :
        (fun k => [Event.get,
            Event.sleep (pause * cfg.pause_multiplier * cfg.pause_multiplier ^ k)]) =
          (fun k => [Event.get,
            Event.sleep (pause * cfg.pause_multiplier ^ (k + 1))]) := by
      funext k; rw [hpow k]
    rw [hpow n, hfun, List.range_succ_eq_map, List.flatMap_cons, List.flatMap_map]
    simp [pow_zero, mul_one, Nat.succ_eq_add_one]

theorem get_response_all_fail (cfg : ReaderCfg) (url : String) (params : Params)
    (hfail : ∀ i, (cfg.responses i).status_code ≠ requests_codes_ok)
    (hstop : ∀ r, cfg.output_error r = false)
    (hcrumb : isCrumbList params = false) :
    (∃ t, _get_response cfg url params =
      ((.remoteDataError ("Unable to read URL: " ++ url ++ t)),
        (List.range (cfg.retry_count + 1)).flatMap
          (fun k => [Event.get, Event.sleep (cfg.pause * cfg.pause_multiplier ^ k)]))) := by
  obtain ⟨ft, hft⟩ :=
    getResponseLoop_exhausts cfg params hfail hstop hcrumb (cfg.retry_count + 1) 0 cfg.pause ""
  rw [_get_response, hft]
  by_cases hp : 0 < paramsLen params
  · by_cases hft2 : ft ≠ ""
    · exact ⟨"?" ++ urlencodeP params ++ ("\nResponse Text:\n" ++ ft), by
        simp only [if_pos hp, if_pos hft2]
        simp [String.append_assoc]⟩
    · exact ⟨"?" ++ urlencodeP params, by
        simp only [if_pos hp, if_neg hft2]
        simp [String.append_assoc]⟩
  · by_cases hft2 : ft ≠ ""
    · exact ⟨"\nResponse Text:\n" ++ ft, by
        simp only [if_neg hp, if_pos hft2]
        simp [String.append_assoc]⟩
    · exact ⟨"", by simp only [if_neg hp, if_neg hft2, String.append_empty]⟩

theorem count_get_flatMap (g : Nat → ℚ) (m : Nat) :
    ((List.range m).flatMap (fun k => [Event.get, Event.sleep (g k)])).count Event.get
      = m := by
  induction m with
  | zero => rfl
  | succ n ih =>
    rw [List.range_succ, List.flatMap_append, List.count_append, ih]
    rfl

/-! ### Claims about the retry engine (C2, C7, C10) -/

/-- A reader whose endpoint always returns HTTP 404 with no declared
encoding, using the default classifier and the base crumb hook, with the
given retry_count and a pause of 1. -/
def failCfg (rc : Nat) : ReaderCfg :=
  ⟨rc, 1, 1, fun _ => ⟨404, none, ""⟩, default_output_error, base_get_crumb⟩

/-- C2, counterexample: with retry_count = 1, an endpoint that always
returns 404 and the default error classifier, calling `_get_response` with
`params = ["crumb"]` issues exactly one GET (not two) and raises
`NotImplementedError` from `_get_crumb` (not `RemoteDataError`), because
the crumb-refresh branch runs before the next attempt. -/
theorem get_response_crumb_list_breaks_retry :
    ((_get_response (failCfg 1) "http://example.com"
        (.plist ["crumb"])).2.count Event.get = 1 ∧ 1 ≠ (failCfg 1).retry_count + 1) ∧
    (_get_response (failCfg 1) "http://example.com" (.plist ["crumb"])).1
      = .uncaught .notImplementedError := by
  decide

/-- C2 (amended): for every retry_count N ≥ 0, if every GET returns a
non-success status, the default error classifier is in use, and `params`
is not a list containing the entry `"crumb"`, then `_get_response` issues
exactly N+1 GET requests and then raises `RemoteDataError`, and the error
message contains the request URL. -/
theorem get_response_retry_exhaustion (cfg : ReaderCfg) (url : String) (params : Params)
    (hfail : ∀ i, (cfg.responses i).status_code ≠ requests_codes_ok)
    (hclass : cfg.output_error = default_output_error)
    (hcrumb : isCrumbList params = false) :
    (_get_response cfg url params).2.count Event.get = cfg.retry_count + 1 ∧
    ∃ msg, (_get_response cfg url params).1 = .remoteDataError msg ∧
      ∃ x y, msg = x ++ url ++ y := by
  obtain ⟨t, ht⟩ := get_response_all_fail cfg url params hfail
    (fun r => by rw [hclass]; rfl) hcrumb
  rw [ht]
  refine ⟨count_get_flatMap _ _, "Unable to read URL: " ++ url ++ t, rfl,
    "Unable to read URL: ", t, ?_⟩
  rw [String.append_assoc]

/-- Witness for the amended C2 at retry_count = 2, empty params and an
always-404 endpoint: three GETs, then a RemoteDataError naming the URL. -/
theorem get_response_retry_exhaustion_witness :
    (_get_response (failCfg 2) "http://example.com" Params.none).2.count Event.get = 3 ∧
    ∃ msg, (_get_response (failCfg 2) "http://example.com" Params.none).1
        = .remoteDataError msg ∧
      ∃ x y, msg = x ++ "http://example.com" ++ y :=
  get_response_retry_exhaustion (failCfg 2) "http://example.com" Params.none
    (fun i => by simp [failCfg, requests_codes_ok]) rfl rfl

/-- A reader like `failCfg` but whose provider implements `_get_crumb`,
returning a fresh token. -/
def crumbCfg : ReaderCfg :=
  ⟨1, 1, 1, fun _ => ⟨404, none, ""⟩, default_output_error, fun _ => .ok "refreshed"⟩

/-- C7: when `params` is a list containing the entry `"crumb"` and a retry
iteration follows a non-success response, the code does request a
refreshed token from the provider hook, but the substitution
`params["crumb"] = ...` is an item assignment on a Python *list*, which
raises `TypeError`; the call aborts after a single GET instead of storing
the token under the `"crumb"` key and continuing to retry. -/
theorem get_response_crumb_substitution_raises :
    _get_response crumbCfg "http://example.com" (.plist ["crumb"])
      = (.uncaught .typeError, [Event.get, Event.sleep 1]) := by
  decide

/-- C10: a `_get_response` call that exhausts its retries without success
(every response non-success, the classifier never stops early, and no
crumb-list params) sleeps for the current pause duration after every one
of the retry_count+1 failed attempts — including after the final attempt —
before raising `RemoteDataError`: the event trace is exactly
retry_count+1 repetitions of a GET followed by a sleep with the pause of
that iteration. -/
theorem get_response_sleeps_after_every_attempt (cfg : ReaderCfg) (url : String)
    (params : Params)
    (hfail : ∀ i, (cfg.responses i).status_code ≠ requests_codes_ok)
    (hstop : ∀ r, cfg.output_error r = false)
    (hcrumb : isCrumbList params = false) :
    (∃ msg, (_get_response cfg url params).1 = .remoteDataError msg) ∧
    (_get_response cfg url params).2 =
      (List.range (cfg.retry_count + 1)).flatMap
        (fun k => [Event.get, Event.sleep (cfg.pause * cfg.pause_multiplier ^ k)]) := by
  obtain ⟨t, ht⟩ := get_response_all_fail cfg url params hfail hstop hcrumb
  rw [ht]
  exact ⟨⟨_, rfl⟩, rfl⟩

/-- Witness for C10 at retry_count = 1 with an always-404 endpoint. -/
theorem get_response_sleeps_after_every_attempt_witness :
    (∃ msg, (_get_response (failCfg 1) "http://u" Params.none).1
        = .remoteDataError msg) ∧
    (_get_response (failCfg 1) "http://u" Params.none).2 =
      (List.range ((failCfg 1).retry_count + 1)).flatMap
        (fun k => [Event.get,
          Event.sleep ((failCfg 1).pause * (failCfg 1).pause_multiplier ^ k)]) :=
  get_response_sleeps_after_every_attempt (failCfg 1) "http://u" Params.none
    (fun i => by simp [failCfg, requests_codes_ok]) (fun r => rfl) rfl

/-! ### Claims about the session lifecycle (C5) -/

/-- C5, counterexample: the multi-symbol daily reader's overriding `read`
contains no `close`; after a completed (successful) top-level `read()` the
session is still open, so the session is not closed on every exit path for
both readers. -/
theorem daily_read_leaves_session_open :
    ((daily_read ⟨true⟩ (Except.ok (0 : Nat))).2).sessionOpen = true := rfl

/-- C5 (amended): the single-entity reader `_BaseReader.read` closes the
session on every exit path (normal return or raised error) via its
`try/finally`, but the multi-symbol daily reader `_DailyBaseReader.read`
overrides `read` without any `close`, leaving the session state untouched
on every exit path. -/
theorem read_session_lifecycle {α : Type} (s : SessionState) (body : Except PyErr α) :
    ((base_read s body).2).sessionOpen = false ∧ (daily_read s body).2 = s :=
  ⟨rfl, rfl⟩

/-! ### Claims about the response normalizer (C6, C9) -/

/-- A parsed two-row table whose rows both carry the same date. -/
def dupTwoRows : DataFrame :=
  ⟨["Close"], "Date", [("2020-01-02", [some 1]), ("2020-01-02", [some 2])]⟩

/-- C6, counterexample: a well-formed table whose parsed-and-reversed rows
end with two rows sharing an index value, but which has only those two
rows: `_read_lines` keeps both rows, so two rows with that date remain in
the output instead of one. -/
theorem read_lines_keeps_two_row_duplicate :
    (_read_lines dupTwoRows).rows.map Prod.fst = ["2020-01-02", "2020-01-02"] ∧
    (_read_lines dupTwoRows).rows.length ≠ 1 := by
  decide

/-- C6 (amended): for every parsed table whose reversed row list has
strictly more than two rows and whose last two rows share an index value,
`_read_lines` drops the last of the two duplicate trailing rows: the
output rows are the reversed rows without their final row, so exactly one
of the two trailing duplicate rows remains. -/
theorem read_lines_drops_trailing_duplicate (df : DataFrame)
    (hlen : 2 < df.rows.length)
    (hdup : ((df.rows.reverse).get? (df.rows.length - 1)).map Prod.fst
        = ((df.rows.reverse).get? (df.rows.length - 2)).map Prod.fst) :
    (_read_lines df).rows = (df.rows.reverse).take (df.rows.length - 1) ∧
    (_read_lines df).rows.length = df.rows.length - 1 := by
  have hcond : 2 < (df.rows.reverse).length ∧
      ((df.rows.reverse).get? ((df.rows.reverse).length - 1)).map Prod.fst
        = ((df.rows.reverse).get? ((df.rows.reverse).length - 2)).map Prod.fst := by
    rw [List.length_reverse]
    exact ⟨hlen, hdup⟩
  simp only [_read_lines, if_pos hcond]
  refine ⟨by rw [List.length_reverse], ?_⟩
  rw [List.length_take, List.length_reverse]
  omega

/-- A parsed three-row table (newest first) whose two most recent rows
share the same date. -/
def dupThreeRows : DataFrame :=
  ⟨["Close"], "Date",
    [("2020-01-02", [some 1]), ("2020-01-02", [some 2]), ("2020-01-01", [some 3])]⟩

/-- Witness for the amended C6: on a three-row table with a trailing
duplicate date, `_read_lines` keeps the first two reversed rows. -/
theorem read_lines_drops_trailing_duplicate_witness :
    (_read_lines dupThreeRows).rows
        = ((dupThreeRows.rows.reverse).take (dupThreeRows.rows.length - 1)) ∧
    (_read_lines dupThreeRows).rows.length = dupThreeRows.rows.length - 1 :=
  read_lines_drops_trailing_duplicate dupThreeRows (by decide) (by decide)

/-- C9: `_read_lines` keeps every row (in reversed order) whenever the
parsed table has at most two rows — even when the final two rows share an
identical index value — because the trailing-duplicate removal is guarded
by `len(rs) > 2`. -/
theorem read_lines_small_table_keeps_rows (df : DataFrame)
    (hlen : df.rows.length ≤ 2) :
    (_read_lines df).rows = df.rows.reverse := by
  have hcond : ¬(2 < (df.rows.reverse).length ∧
      ((df.rows.reverse).get? ((df.rows.reverse).length - 1)).map Prod.fst
        = ((df.rows.reverse).get? ((df.rows.reverse).length - 2)).map Prod.fst) := by
    rw [List.length_reverse]
    intro h
    omega
  simp only [_read_lines, if_neg hcond]

/-- Witness for C9 on a two-row table whose rows share one date: both rows
survive normalization. -/
theorem read_lines_small_table_keeps_rows_witness :
    (_read_lines dupTwoRows).rows = dupTwoRows.rows.reverse :=
  read_lines_small_table_keeps_rows dupTwoRows (by decide)

/-! ### Claims about chunking (C8) -/

theorem in_chunks_nil {α : Type} (size : Nat) : _in_chunks ([] : List α) size = [] := by
  unfold _in_chunks pyRange
  have h : (0 - 0 + size - 1) / size = 0 := by
    cases size with
    | zero => simp
    | succ n => exact Nat.div_eq_of_lt (by omega)
  rw [List.length_nil, h]
  rfl

theorem in_chunks_cons {α : Type} (seq : List α) (size : Nat) (hs : 0 < size)
    (hne : seq ≠ []) :
    _in_chunks seq size = seq.take size :: _in_chunks (seq.drop size) size := by
  have hn : 0 < seq.length := List.length_pos.mpr hne
  have hq : (seq.length - 0 + size - 1) / size
      = ((seq.drop size).length - 0 + size - 1) / size + 1 := by
    rw [List.length_drop]
    rcases le_or_lt seq.length size with h | h
    · have h1 : seq.length - size = 0 := by omega
      have h3 : seq.length - 0 + size - 1 = (seq.length - 1) + size := by omega
      rw [h1, h3, Nat.add_div_right _ hs, Nat.div_eq_of_lt (by omega),
        Nat.div_eq_of_lt (by omega)]
    · have h3 : seq.length - 0 + size - 1 = (seq.length - size - 0 + size - 1) + size := by
        omega
      rw [h3, Nat.add_div_right _ hs]
  unfold _in_chunks pyRange
  rw [hq, List.range_succ_eq_map, List.map_cons, List.map_cons, List.map_map, List.map_map,
    List.map_map]
  congr 1
  · simp
  · refine List.map_congr_left ?_
    intro k _
    simp only [Function.comp_apply, List.drop_drop]
    congr 2
    simp only [Nat.succ_mul]
    omega

theorem in_chunks_flatten_aux {α : Type} (size : Nat) (hs : 0 < size) :
    ∀ (n : Nat) (seq : List α), seq.length ≤ n → (_in_chunks seq size).flatten = seq := by
  intro n
  induction n with
  | zero =>
    intro seq hle
    have : seq = [] := List.eq_nil_of_length_eq_zero (by omega)
    subst this
    rw [in_chunks_nil]
    rfl
  | succ n ih =>
    intro seq hle
    cases hseq : seq with
    | nil => rw [in_chunks_nil]; rfl
    | cons a as =>
      rw [← hseq, in_chunks_cons seq size hs (by rw [hseq]; exact List.cons_ne_nil a as)]
      rw [List.flatten_cons, ih (seq.drop size) (by rw [List.length_drop]; omega)]
      exact List.take_append_drop size seq

/-- C8: for every sequence and every positive chunk size, `_in_chunks`
partitions the sequence into contiguous chunks that concatenate back to
the original sequence, each chunk is at most the given size, every chunk
before the last has exactly the given size, and a collection of length 60
with chunksize 25 yields chunks of sizes [25, 25, 10]. -/
theorem in_chunks_partition {α : Type} (seq : List α) (size : Nat) (hs : 0 < size) :
    (_in_chunks seq size).flatten = seq ∧
    (∀ c ∈ _in_chunks seq size, c.length ≤ size) ∧
    (∀ i, i + 1 < (_in_chunks seq size).length →
      ((_in_chunks seq size).getD i []).length = size) ∧
    (_in_chunks (List.range 60) 25).map List.length = [25, 25, 10] := by
  refine ⟨in_chunks_flatten_aux size hs seq.length seq le_rfl, ?_, ?_, by decide⟩
  · intro c hc
    obtain ⟨pos, _, hpos⟩ := List.mem_map.mp hc
    rw [← hpos, List.length_take]
    exact Nat.min_le_left _ _
  · intro i hi
    have hlen : (_in_chunks seq size).length = (seq.length - 0 + size - 1) / size := by
      unfold _in_chunks pyRange
      rw [List.length_map, List.length_map, List.length_range]
    have hiq : i < (seq.length - 0 + size - 1) / size := by omega
    have hget : (_in_chunks seq size)[i]? = some ((seq.drop (0 + i * size)).take size) := by
      unfold _in_chunks pyRange
      rw [List.getElem?_map, List.getElem?_map, List.getElem?_range hiq]
      rfl
    rw [List.getD_eq_getElem?_getD, hget]
    simp only [Option.getD_some, Nat.zero_add, List.length_take, List.length_drop]
    have hmul : (i + 2) * size ≤ ((seq.length - 0 + size - 1) / size) * size :=
      Nat.mul_le_mul_right size (by omega)
    have hdivmul : ((seq.length - 0 + size - 1) / size) * size ≤ seq.length - 0 + size - 1 :=
      Nat.div_mul_le_self _ _
    have hexpand : (i + 2) * size = i * size + 2 * size := by ring
    omega

/-- Witness for C8 at the spec's instance: length-60 collection, chunk
size 25. -/
theorem in_chunks_partition_witness :
    (_in_chunks (List.range 60) 25).flatten = List.range 60 ∧
    (∀ c ∈ _in_chunks (List.range 60) 25, c.length ≤ 25) ∧
    (∀ i, i + 1 < (_in_chunks (List.range 60) 25).length →
      ((_in_chunks (List.range 60) 25).getD i []).length = 25) ∧
    (_in_chunks (List.range 60) 25).map List.length = [25, 25, 10] :=
  in_chunks_partition (List.range 60) 25 (by decide)

/-! ### Helper lemmas about the batcher state -/

theorem lookupFrame_insertOrUpdate (stocks : List (String × DataFrame)) (k : String)
    (v : DataFrame) (s : String) :
    lookupFrame (insertOrUpdate stocks k v) s =
      if s = k then some v else lookupFrame stocks s := by
  induction stocks with
  | nil =>
    rcases eq_or_ne s k with h | h
    · subst h; simp [insertOrUpdate, lookupFrame]
    · simp [insertOrUpdate, lookupFrame, h, Ne.symm h]
  | cons e rest ih =>
    obtain ⟨k2, v2⟩ := e
    rcases eq_or_ne k2 k with h1 | h1
    · subst h1
      rcases eq_or_ne s k2 with h2 | h2
      · subst h2; simp [insertOrUpdate, lookupFrame]
      · simp [insertOrUpdate, lookupFrame, h2, Ne.symm h2]
    · rcases eq_or_ne k2 s with h2 | h2
      · subst h2
        simp [insertOrUpdate, lookupFrame, h1]
      · simp [insertOrUpdate, lookupFrame, h1, h2, Ne.symm h2, ih]

theorem mem_insertOrUpdate (stocks : List (String × DataFrame)) (k : String)
    (v : DataFrame) (e : String × DataFrame) :
    e ∈ insertOrUpdate stocks k v → e = (k, v) ∨ e ∈ stocks := by
  induction stocks with
  | nil =>
    intro h
    simp only [insertOrUpdate, List.mem_singleton] at h
    exact Or.inl h
  | cons e2 rest ih =>
    obtain ⟨k2, v2⟩ := e2
    intro h
    simp only [insertOrUpdate] at h
    by_cases h1 : k2 = k
    · rw [if_pos h1] at h
      rcases List.mem_cons.mp h with h2 | h2
      · exact Or.inl h2
      · exact Or.inr (List.mem_cons_of_mem _ h2)
    · rw [if_neg h1] at h
      rcases List.mem_cons.mp h with h2 | h2
      · exact Or.inr (by simp [h2])
      · rcases ih h2 with h3 | h3
        · exact Or.inl h3
        · exact Or.inr (List.mem_cons_of_mem _ h3)

theorem insertOrUpdate_ne_nil (stocks : List (String × DataFrame)) (k : String)
    (v : DataFrame) : insertOrUpdate stocks k v ≠ [] := by
  cases stocks with
  | nil => simp [insertOrUpdate]
  | cons e rest =>
    obtain ⟨k2, v2⟩ := e
    by_cases h : k2 = k <;> simp [insertOrUpdate, h]

theorem lookupFrame_isSome_mem_keys (stocks : List (String × DataFrame)) (s : String) :
    (lookupFrame stocks s).isSome = true → s ∈ stocks.map Prod.fst := by
  induction stocks with
  | nil => intro h; simp [lookupFrame] at h
  | cons e rest ih =>
    by_cases h1 : e.1 = s
    · intro _; simp [h1.symm]
    · intro h
      rw [lookupFrame, if_neg h1] at h
      simp only [List.map_cons, List.mem_cons]
      exact Or.inr (ih h)

theorem lookup_fold_insertOrUpdate_of_some (v : DataFrame) :
    ∀ (l : List String) (stocks : List (String × DataFrame)) (s : String),
      lookupFrame stocks s = some v →
      lookupFrame (l.foldl (fun st k => insertOrUpdate st k v) stocks) s = some v := by
  intro l
  induction l with
  | nil => intro stocks s h; exact h
  | cons a rest ih =>
    intro stocks s h
    rw [List.foldl_cons]
    refine ih _ s ?_
    rw [lookupFrame_insertOrUpdate]
    by_cases ha : s = a <;> simp [ha, h]

theorem lookup_fold_insertOrUpdate_mem (v : DataFrame) :
    ∀ (l : List String) (stocks : List (String × DataFrame)) (s : String),
      s ∈ l →
      lookupFrame (l.foldl (fun st k => insertOrUpdate st k v) stocks) s = some v := by
  intro l
  induction l with
  | nil => intro stocks s h; simp at h
  | cons a rest ih =>
    intro stocks s h
    rw [List.foldl_cons]
    rcases List.mem_cons.mp h with h1 | h1
    · subst h1
      by_cases h2 : s ∈ rest
      · exact ih _ s h2
      · refine lookup_fold_insertOrUpdate_of_some v rest _ s ?_
        rw [lookupFrame_insertOrUpdate, if_pos rfl]
    · exact ih _ s h1

theorem lookup_fold_insertOrUpdate_isSome (v : DataFrame) :
    ∀ (l : List String) (stocks : List (String × DataFrame)) (s : String),
      (lookupFrame stocks s).isSome = true →
      (lookupFrame (l.foldl (fun st k => insertOrUpdate st k v) stocks) s).isSome = true := by
  intro l
  induction l with
  | nil => intro stocks s h; exact h
  | cons a rest ih =>
    intro stocks s h
    rw [List.foldl_cons]
    refine ih _ s ?_
    rw [lookupFrame_insertOrUpdate]
    by_cases ha : s = a <;> simp [ha, h]

theorem mem_fold_insertOrUpdate (v : DataFrame) :
    ∀ (l : List String) (stocks : List (String × DataFrame)) (e : String × DataFrame),
      e ∈ l.foldl (fun st k => insertOrUpdate st k v) stocks →
      e ∈ stocks ∨ e.2 = v := by
  intro l
  induction l with
  | nil => intro stocks e h; exact Or.inl h
  | cons a rest ih =>
    intro stocks e h
    rw [List.foldl_cons] at h
    rcases ih _ e h with h1 | h1
    · rcases mem_insertOrUpdate _ _ _ _ h1 with h2 | h2
      · exact Or.inr (by rw [h2])
      · exact Or.inl h2
    · exact Or.inr h1

theorem fold_insertOrUpdate_ne_nil (v : DataFrame) :
    ∀ (l : List String) (stocks : List (String × DataFrame)),
      stocks ≠ [] → l.foldl (fun st k => insertOrUpdate st k v) stocks ≠ [] := by
  intro l
  induction l with
  | nil => intro stocks h; exact h
  | cons a rest ih =>
    intro stocks h
    rw [List.foldl_cons]
    exact ih _ (insertOrUpdate_ne_nil _ _ _)

theorem processSym_fold_passed (fetch : String → Option DataFrame) :
    ∀ (syms : List String) (st : BatchState),
      (syms.foldl (processSym fetch) st).passed
        = st.passed ++ syms.filter (fun s => (fetch s).isSome) := by
  intro syms
  induction syms with
  | nil => intro st; simp
  | cons a rest ih =>
    intro st
    rw [List.foldl_cons, ih, List.filter_cons]
    cases hf : fetch a <;> simp [processSym, hf]

theorem processSym_fold_failed (fetch : String → Option DataFrame) :
    ∀ (syms : List String) (st : BatchState),
      (syms.foldl (processSym fetch) st).failed
        = st.failed ++ syms.filter (fun s => (fetch s).isNone) := by
  intro syms
  induction syms with
  | nil => intro st; simp
  | cons a rest ih =>
    intro st
    rw [List.foldl_cons, ih, List.filter_cons]
    cases hf : fetch a <;> simp [processSym, hf]

theorem processSym_fold_warnings (fetch : String → Option DataFrame) :
    ∀ (syms : List String) (st : BatchState),
      (syms.foldl (processSym fetch) st).warnings
        = st.warnings ++ (syms.filter (fun s => (fetch s).isNone)).map failMsg := by
  intro syms
  induction syms with
  | nil => intro st; simp
  | cons a rest ih =>
    intro st
    rw [List.foldl_cons, ih, List.filter_cons]
    cases hf : fetch a <;> simp [processSym, hf]

theorem processSym_fold_lookup (fetch : String → Option DataFrame) :
    ∀ (syms : List String) (st : BatchState) (s : String),
      lookupFrame (syms.foldl (processSym fetch) st).stocks s
        = if s ∈ syms ∧ (fetch s).isSome = true then fetch s
          else lookupFrame st.stocks s := by
  intro syms
  induction syms with
  | nil => intro st s; simp
  | cons a rest ih =>
    intro st s
    rw [List.foldl_cons, ih]
    by_cases hr : s ∈ rest ∧ (fetch s).isSome = true
    · rw [if_pos hr, if_pos ⟨List.mem_cons_of_mem _ hr.1, hr.2⟩]
    · rw [if_neg hr]
      by_cases ha : s = a
      · subst ha
        cases hf : fetch s with
        | none => simp [processSym, hf]
        | some df =>
          rw [if_pos ⟨List.mem_cons_self s rest, by simp [hf]⟩]
          simp [processSym, hf, lookupFrame_insertOrUpdate]
      · have hcond : ¬(s ∈ a :: rest ∧ (fetch s).isSome = true) := by
          intro hc
          rcases List.mem_cons.mp hc.1 with h | h
          · exact ha h
          · exact hr ⟨h, hc.2⟩
        rw [if_neg hcond]
        cases hf : fetch a with
        | none => simp [processSym, hf]
        | some df => simp [processSym, hf, lookupFrame_insertOrUpdate, ha]

theorem processSym_fold_stocks_mem (fetch : String → Option DataFrame) :
    ∀ (syms : List String) (st : BatchState) (e : String × DataFrame),
      e ∈ (syms.foldl (processSym fetch) st).stocks →
      e ∈ st.stocks ∨ fetch e.1 = some e.2 := by
  intro syms
  induction syms with
  | nil => intro st e h; exact Or.inl h
  | cons a rest ih =>
    intro st e h
    rw [List.foldl_cons] at h
    rcases ih _ e h with h1 | h1
    · cases hf : fetch a with
      | none => simp only [processSym, hf] at h1; exact Or.inl h1
      | some df =>
        simp only [processSym, hf] at h1
        rcases mem_insertOrUpdate _ _ _ _ h1 with h2 | h2
        · subst h2; exact Or.inr hf
        · exact Or.inl h2
    · exact Or.inr h1

theorem mem_insertSorted (x : String) :
    ∀ (l : List String) (s : String), s ∈ insertSorted x l ↔ s = x ∨ s ∈ l := by
  intro l
  induction l with
  | nil => intro s; simp [insertSorted]
  | cons y ys ih =>
    intro s
    by_cases h : (compare x y).isLE = true
    · simp [insertSorted, h]
    · simp only [insertSorted, if_neg h, List.mem_cons, ih]
      tauto

theorem mem_sortStrings (l : List String) (s : String) :
    s ∈ sortStrings l ↔ s ∈ l := by
  induction l with
  | nil => simp [sortStrings]
  | cons a rest ih =>
    simp only [sortStrings, List.foldr_cons] at ih ⊢
    rw [mem_insertSorted, ih, List.mem_cons]

theorem cellOf_allNaN (stocks : List (String × DataFrame)) (sym : String) (r : Nat)
    (attr : String) (df : DataFrame)
    (hl : lookupFrame stocks sym = some (allNaN df)) :
    cellOf stocks sym r attr = none := by
  unfold cellOf
  rw [hl]
  simp only [allNaN]
  cases hci : List.indexOf? attr df.columns with
  | none => rfl
  | some ci =>
    simp only [hci]
    cases horig : df.rows[r]? with
    | none => simp [List.getElem?_map, horig]
    | some orig =>
      rcases Nat.lt_or_ge ci orig.2.length with hlt | hge
      · simp [List.getElem?_map, horig, List.getElem?_replicate, hlt]
      · simp [List.getElem?_map, horig, List.getElem?_replicate, Nat.not_lt.mpr hge]

theorem dl_state_eq (fetch : String → Option DataFrame) (symbols : List String)
    (chunksize : Nat) (hcs : 0 < chunksize) (init : BatchState) :
    (_in_chunks symbols chunksize).foldl
        (fun acc grp => grp.foldl (processSym fetch) acc) init
      = symbols.foldl (processSym fetch) init := by
  rw [← List.foldl_flatten,
    in_chunks_flatten_aux chunksize hcs symbols.length symbols le_rfl]

theorem allNaN_columns (df : DataFrame) : (allNaN df).columns = df.columns := rfl

theorem combineStocks_levelNames (stocks : List (String × DataFrame)) :
    (combineStocks stocks).levelNames = ["Attributes", "Symbols"] := by
  cases stocks with
  | nil => rfl
  | cons e rest => obtain ⟨a, b⟩ := e; rfl

theorem combineStocks_cols_eq (e0 : String × DataFrame) (rest : List (String × DataFrame)) :
    (combineStocks (e0 :: rest)).cols
      = (sortStrings e0.2.columns).flatMap
          (fun a => (sortStrings ((e0 :: rest).map Prod.fst)).map (fun s => (a, s))) := by
  obtain ⟨s0, df0⟩ := e0
  rfl

theorem combineStocks_rows_eq (e0 : String × DataFrame) (rest : List (String × DataFrame)) :
    (combineStocks (e0 :: rest)).rows
      = (List.range e0.2.rows.length).map (fun r =>
          (((e0.2.rows.get? r).map Prod.fst).getD "",
            (combineStocks (e0 :: rest)).cols.map
              (fun c => cellOf (e0 :: rest) c.2 r c.1))) := by
  obtain ⟨s0, df0⟩ := e0
  rfl

/-! ### Claims about the multi-symbol batcher (C1, C3, C4) -/

/-- The frame returned by every successful fetch in the concrete batch
scenarios. -/
def dfOk : DataFrame :=
  ⟨["Close"], "Date", [("2020-01-03", [some 1]), ("2020-01-02", [some 2])]⟩

/-- C1: in a multi-symbol batch read in which every symbol succeeds, the
local `result` is never assigned — `concat(...).unstack(...)` runs only
under the guard `len(failed) > 0` — so `return result` raises
`UnboundLocalError` instead of returning the combined table with
"Attributes"/"Symbols" column levels. Evaluated at the failing input
`["A", "B"]` with both fetches succeeding. -/
theorem dl_mult_symbols_all_success_unbound_local :
    _dl_mult_symbols "YahooDailyReader" 25 (fun _ => some dfOk) ["A", "B"]
      = (.uncaught .unboundLocalError, []) := by
  decide

/-- C4: a batch read in which every symbol's fetch fails raises
`RemoteDataError`, and the error message names the reader's class. -/
theorem dl_mult_symbols_all_fail (className : String) (chunksize : Nat)
    (fetch : String → Option DataFrame) (symbols : List String)
    (hcs : 0 < chunksize)
    (hfail : ∀ s, s ∈ symbols → fetch s = none) :
    ∃ msg, (_dl_mult_symbols className chunksize fetch symbols).1
        = .remoteDataError msg ∧ ∃ x y, msg = x ++ className ++ y := by
  have hst : (symbols.foldl (processSym fetch) ⟨[], [], [], []⟩).passed = [] := by
    rw [processSym_fold_passed]
    simp only [List.nil_append]
    rw [List.filter_eq_nil_iff]
    intro a ha
    simp [hfail a ha]
  simp only [_dl_mult_symbols]
  rw [dl_state_eq fetch symbols chunksize hcs, hst]
  refine ⟨"No data fetched using " ++ pyRepr className, rfl,
    "No data fetched using " ++ squote, squote, ?_⟩
  simp [pyRepr, String.append_assoc]

/-- Witness for C4: three symbols, all failing. -/
theorem dl_mult_symbols_all_fail_witness :
    ∃ msg, (_dl_mult_symbols "TestReader" 25 (fun _ => none) ["A", "B", "C"]).1
        = .remoteDataError msg ∧ ∃ x y, msg = x ++ "TestReader" ++ y :=
  dl_mult_symbols_all_fail "TestReader" 25 (fun _ => none) ["A", "B", "C"]
    (by decide) (fun s _ => rfl)

/-- C3: a batch read over symbols at least one of which succeeds and at
least one of which fails with a caught I/O or lookup error, where all
fetched frames share one nonempty column set `cols`: no exception is
raised — the call returns a combined table that has a column for every
symbol, the failed symbols' cells are all missing, and a warning naming
each failed symbol is emitted. -/
theorem dl_mult_symbols_partial_failure (className : String) (chunksize : Nat)
    (cols : List String) (fetch : String → Option DataFrame) (symbols : List String)
    (hcs : 0 < chunksize)
    (hshape : ∀ s df, fetch s = some df → df.columns = cols)
    (hcols : cols ≠ [])
    (hsucc : ∃ s, s ∈ symbols ∧ (fetch s).isSome = true)
    (hfail : ∃ s, s ∈ symbols ∧ fetch s = none) :
    (∃ w : WideFrame,
      (_dl_mult_symbols className chunksize fetch symbols).1 = .ok w ∧
      w.levelNames = ["Attributes", "Symbols"] ∧
      (∀ s, s ∈ symbols → ∃ a, (a, s) ∈ w.cols) ∧
      (∀ s, s ∈ symbols → fetch s = none →
        ∀ row, row ∈ w.rows → ∀ (j : Nat) (a : String), w.cols[j]? = some (a, s) →
          row.2[j]? = some none)) ∧
    (∀ s, s ∈ symbols → fetch s = none →
      failMsg s ∈ (_dl_mult_symbols className chunksize fetch symbols).2 ∧
      ∃ x y, failMsg s = x ++ s ++ y) := by
  obtain ⟨sP, hsPmem, hsPsome⟩ := hsucc
  obtain ⟨sF, hsFmem, hsFnone⟩ := hfail
  have hpassed : (symbols.foldl (processSym fetch) (⟨[], [], [], []⟩ : BatchState)).passed
      = symbols.filter (fun s => (fetch s).isSome) := by
    rw [processSym_fold_passed]; rfl
  have hfailed : (symbols.foldl (processSym fetch) (⟨[], [], [], []⟩ : BatchState)).failed
      = symbols.filter (fun s => (fetch s).isNone) := by
    rw [processSym_fold_failed]; rfl
  have hwarn : (symbols.foldl (processSym fetch) (⟨[], [], [], []⟩ : BatchState)).warnings
      = (symbols.filter (fun s => (fetch s).isNone)).map failMsg := by
    rw [processSym_fold_warnings]; rfl
  have hlook : ∀ s, lookupFrame
        (symbols.foldl (processSym fetch) (⟨[], [], [], []⟩ : BatchState)).stocks s
      = if s ∈ symbols ∧ (fetch s).isSome = true then fetch s else none := by
    intro s
    rw [processSym_fold_lookup]
    rfl
  have hpass_ne :
      (symbols.foldl (processSym fetch) (⟨[], [], [], []⟩ : BatchState)).passed ≠ [] := by
    rw [hpassed]
    intro hnil
    rw [List.filter_eq_nil_iff] at hnil
    exact absurd hsPsome (hnil sP hsPmem)
  cases hpass : (symbols.foldl (processSym fetch) (⟨[], [], [], []⟩ : BatchState)).passed with
  | nil => exact absurd hpass hpass_ne
  | cons p rest =>
    have hpmem : p ∈ symbols ∧ (fetch p).isSome = true := by
      have hp2 : p ∈ symbols.filter (fun s => (fetch s).isSome) := by
        rw [← hpassed, hpass]
        exact List.mem_cons_self p rest
      exact List.mem_filter.mp hp2
    obtain ⟨df0, hdf0⟩ : ∃ df0, fetch p = some df0 :=
      Option.isSome_iff_exists.mp hpmem.2
    have hlookp : lookupFrame
        (symbols.foldl (processSym fetch) (⟨[], [], [], []⟩ : BatchState)).stocks p
        = some df0 := by
      rw [hlook p, if_pos hpmem, hdf0]
    have hstocks_ne :
        (symbols.foldl (processSym fetch) (⟨[], [], [], []⟩ : BatchState)).stocks ≠ [] := by
      intro h
      rw [h] at hlookp
      simp [lookupFrame] at hlookp
    have hfailed_ne :
        (symbols.foldl (processSym fetch) (⟨[], [], [], []⟩ : BatchState)).failed ≠ [] := by
      rw [hfailed]
      intro hnil
      rw [List.filter_eq_nil_iff] at hnil
      refine absurd ?_ (hnil sF hsFmem)
      simp [hsFnone]
    have hcond1 :
        ¬((symbols.foldl (processSym fetch) (⟨[], [], [], []⟩ : BatchState)).passed.length
          = 0) := by
      rw [hpass]; simp
    have hcond2 :
        0 < (symbols.foldl (processSym fetch) (⟨[], [], [], []⟩ : BatchState)).stocks.length ∧
        0 < (symbols.foldl (processSym fetch) (⟨[], [], [], []⟩ : BatchState)).failed.length ∧
        0 < (symbols.foldl (processSym fetch) (⟨[], [], [], []⟩ : BatchState)).passed.length := by
      refine ⟨List.length_pos.mpr hstocks_ne, List.length_pos.mpr hfailed_ne, ?_⟩
      rw [hpass]; simp
    have hrun : _dl_mult_symbols className chunksize fetch symbols
        = (.ok (combineStocks
            ((symbols.foldl (processSym fetch) (⟨[], [], [], []⟩ : BatchState)).failed.foldl
              (fun s2 sym => insertOrUpdate s2 sym (allNaN df0))
              (symbols.foldl (processSym fetch) (⟨[], [], [], []⟩ : BatchState)).stocks)),
          (symbols.foldl (processSym fetch) (⟨[], [], [], []⟩ : BatchState)).warnings) := by
      simp only [_dl_mult_symbols]
      rw [dl_state_eq fetch symbols chunksize hcs]
      rw [if_neg hcond1, if_pos hcond2]
      split
      · rename_i heq
        exact absurd heq hpass_ne
      · rename_i p2 tail heq
        rw [hpass] at heq
        injection heq with heqp heqr
        subst heqp
        split
        · rename_i heq2
          rw [hlookp] at heq2
          exact absurd heq2 (by simp)
        · rename_i df heq2
          rw [hlookp] at heq2
          injection heq2 with heq3
          subst heq3
          rfl
    have hkey : ∀ s, s ∈ symbols →
        (lookupFrame
          ((symbols.foldl (processSym fetch) (⟨[], [], [], []⟩ : BatchState)).failed.foldl
            (fun s2 sym => insertOrUpdate s2 sym (allNaN df0))
            (symbols.foldl (processSym fetch) (⟨[], [], [], []⟩ : BatchState)).stocks)
          s).isSome = true := by
      intro s hs
      cases hf : fetch s with
      | some df =>
        refine lookup_fold_insertOrUpdate_isSome _ _ _ _ ?_
        rw [hlook s, if_pos ⟨hs, by rw [hf]; rfl⟩, hf]
        rfl
      | none =>
        rw [lookup_fold_insertOrUpdate_mem _ _ _ _ ?_]
        · rfl
        · rw [hfailed, List.mem_filter]
          exact ⟨hs, by simp [hf]⟩
    have hfailed_lookup : ∀ s, s ∈ symbols → fetch s = none →
        lookupFrame
          ((symbols.foldl (processSym fetch) (⟨[], [], [], []⟩ : BatchState)).failed.foldl
            (fun s2 sym => insertOrUpdate s2 sym (allNaN df0))
            (symbols.foldl (processSym fetch) (⟨[], [], [], []⟩ : BatchState)).stocks)
          s = some (allNaN df0) := by
      intro s hs hf
      refine lookup_fold_insertOrUpdate_mem _ _ _ _ ?_
      rw [hfailed, List.mem_filter]
      exact ⟨hs, by simp [hf]⟩
    have hstocks2_ne :
        (symbols.foldl (processSym fetch) (⟨[], [], [], []⟩ : BatchState)).failed.foldl
          (fun s2 sym => insertOrUpdate s2 sym (allNaN df0))
          (symbols.foldl (processSym fetch) (⟨[], [], [], []⟩ : BatchState)).stocks ≠ [] :=
      fold_insertOrUpdate_ne_nil _ _ _ hstocks_ne
    have hentry_cols : ∀ e, e ∈
        (symbols.foldl (processSym fetch) (⟨[], [], [], []⟩ : BatchState)).failed.foldl
          (fun s2 sym => insertOrUpdate s2 sym (allNaN df0))
          (symbols.foldl (processSym fetch) (⟨[], [], [], []⟩ : BatchState)).stocks →
        e.2.columns = cols := by
      intro e he
      rcases mem_fold_insertOrUpdate _ _ _ _ he with h1 | h1
      · rcases processSym_fold_stocks_mem fetch symbols _ e h1 with h2 | h2
        · exact absurd h2 (List.not_mem_nil e)
        · exact hshape e.1 e.2 h2
      · rw [h1, allNaN_columns]
        exact hshape p df0 hdf0
    cases hs2 :
        (symbols.foldl (processSym fetch) (⟨[], [], [], []⟩ : BatchState)).failed.foldl
          (fun s2 sym => insertOrUpdate s2 sym (allNaN df0))
          (symbols.foldl (processSym fetch) (⟨[], [], [], []⟩ : BatchState)).stocks with
    | nil => exact absurd hs2 hstocks2_ne
    | cons e0 rest2 =>
      have he0cols : e0.2.columns = cols :=
        hentry_cols e0 (by rw [hs2]; exact List.mem_cons_self _ _)
      refine ⟨⟨combineStocks (e0 :: rest2), ?_, combineStocks_levelNames _, ?_, ?_⟩, ?_⟩
      · rw [hrun, hs2]
      · intro s hs
        obtain ⟨a0, ha0⟩ := List.exists_mem_of_ne_nil cols hcols
        refine ⟨a0, ?_⟩
        rw [combineStocks_cols_eq]
        refine List.mem_flatMap.mpr ⟨a0, ?_, List.mem_map.mpr ⟨s, ?_, rfl⟩⟩
        · rw [mem_sortStrings, he0cols]
          exact ha0
        · rw [mem_sortStrings, ← hs2]
          exact lookupFrame_isSome_mem_keys _ s (by rw [hs2, ← hs2]; exact hkey s hs)
      · intro s hs hf row hrow j a hjc
        rw [combineStocks_rows_eq] at hrow
        obtain ⟨r, _, hreq⟩ := List.mem_map.mp hrow
        have hcell : row.2 = (combineStocks (e0 :: rest2)).cols.map
            (fun c => cellOf (e0 :: rest2) c.2 r c.1) := by
          rw [← hreq]
        have hlooks : lookupFrame (e0 :: rest2) s = some (allNaN df0) := by
          rw [← hs2]
          exact hfailed_lookup s hs hf
        rw [hcell, List.getElem?_map, hjc]
        simp only [Option.map_some']
        rw [cellOf_allNaN (e0 :: rest2) s r a df0 hlooks]
      · intro s hs hf
        constructor
        · simp only [hrun]
          rw [hwarn]
          exact List.mem_map.mpr ⟨s, List.mem_filter.mpr ⟨hs, by simp [hf]⟩, rfl⟩
        · exact ⟨"Failed to read symbol: " ++ squote, squote ++ ", replacing with NaN.",
            by simp [failMsg, pyRepr, String.append_assoc]⟩

/-- The fetch environment of the C3 witness: symbol "B" always fails with
a caught error, the others succeed. -/
def fetchB (s : String) : Option DataFrame := if s = "B" then none else some dfOk

/-- Witness for C3: symbols ["A", "B", "C"] with "B" always failing. -/
theorem dl_mult_symbols_partial_failure_witness :
    (∃ w : WideFrame,
      (_dl_mult_symbols "TestReader" 25 fetchB ["A", "B", "C"]).1 = .ok w ∧
      w.levelNames = ["Attributes", "Symbols"] ∧
      (∀ s, s ∈ ["A", "B", "C"] → ∃ a, (a, s) ∈ w.cols) ∧
      (∀ s, s ∈ ["A", "B", "C"] → fetchB s = none →
        ∀ row, row ∈ w.rows → ∀ (j : Nat) (a : String), w.cols[j]? = some (a, s) →
          row.2[j]? = some none)) ∧
    (∀ s, s ∈ ["A", "B", "C"] → fetchB s = none →
      failMsg s ∈ (_dl_mult_symbols "TestReader" 25 fetchB ["A", "B", "C"]).2 ∧
      ∃ x y, failMsg s = x ++ s ++ y) :=
  dl_mult_symbols_partial_failure "TestReader" 25 ["Close"] fetchB ["A", "B", "C"]
    (by decide)
    (fun s df h => by
      by_cases hs : s = "B"
      · simp [fetchB, hs] at h
      · simp only [fetchB, if_neg hs] at h
        injection h with h2
        rw [← h2]
        rfl)
    (by decide)
    ⟨"A", by decide, by decide⟩
    ⟨"B", by decide, by decide⟩

end PandasDatareader
